import Mathlib

/-!
# Shallow embedding of `シフト給与自動計算ツール.py`

The program is a pandas pipeline that reads per-month attendance sheets,
derives worked hours (with an overnight correction), attaches an hourly wage
by employee name, computes pay, tags rows with the source month, concatenates
the months and writes one output workbook.

Modelling conventions:
* A DataFrame is a `List` of row structures; adding a column is moving to a
  structure with one more field; `pd.concat(..., ignore_index=True)` is list
  append.
* pandas `NaT`/`NaN` propagation is `Option`: a missing value is `none` and
  every arithmetic combination with `none` is `none`, matching NaN/NaT
  semantics in the expressions the program uses.
* Python exceptions that abort the run (`pd.read_excel` on a missing sheet,
  `pd.to_datetime` without `errors="coerce"` on a bad date) are `Except`:
  `.error` means the exception propagates and nothing after the raise point
  runs (in particular `to_excel` never runs, so no output file is written).
* float64 arithmetic is modelled by exact rationals `ℚ`; `Series.round(2)`
  is numpy's default rounding, round-half-to-even, modelled exactly on `ℚ`.
* Machine timestamps are `ℤ` seconds since an epoch: a date contributes
  `epochDays * 86400` and a time of day its seconds-of-day.
-/

/-- A calendar date, the value of the `日付` column after
`pd.to_datetime(df["日付"])` (line 14 of the source). -/
structure Date where
  year : Nat
  month : Nat
  day : Nat
deriving DecidableEq, Repr

/-- Proleptic Gregorian day number (days from an arbitrary fixed epoch),
valid for `year ≥ 1`, `1 ≤ month ≤ 12`.  Standard civil-from-days shift:
the year starts in March so leap days fall at the end. -/
def Date.epochDays (d : Date) : Nat :=
  let y := if d.month ≤ 2 then d.year - 1 else d.year
  let m := if d.month ≤ 2 then d.month + 9 else d.month - 3
  365 * y + y / 4 - y / 100 + y / 400 + (153 * m + 2) / 5 + d.day - 1

/-- Absolute timestamp (seconds since the epoch) of second-of-day `s` on
date `d`: the value of a pandas datetime built from that date and time. -/
def Date.at (d : Date) (s : Nat) : ℤ :=
  (d.epochDays : ℤ) * 86400 + s

/-- A clock-in / clock-out cell as it arrives from `pd.read_excel`:
an Excel time-typed cell (a `datetime.time`), a string cell, or a numeric
cell (Excel stores times as fractions of a day). -/
inductive TimeCell where
  | native (h m s : Nat)
  | str (s : String)
  | num (x : ℚ)
deriving DecidableEq, Repr

/-- Two-digit zero padding, as in `str(datetime.time(9, 0)) = "09:00:00"`. -/
def pad2 (n : Nat) : String :=
  if n < 10 then "0" ++ toString n else toString n

/-- Fractional decimal digits of `r / den` (long division), `fuel` digits. -/
def fracDigits : Nat → Nat → Nat → List Nat
  | 0, _, _ => []
  | fuel + 1, r, den => (r * 10 / den) :: fracDigits fuel (r * 10 % den) den

/-- Decimal representation of a nonnegative rational (Excel day fractions
are nonnegative), digits after the point truncated at 17 and trailing zeros
stripped (one kept), following the shape of Python `str(float)`:
e.g. `3/8 ↦ "0.375"`, `1 ↦ "1.0"`.  Every output contains a decimal point,
as Python float reprs do. -/
def ratDecimalRepr (x : ℚ) : String :=
  let n := x.num.toNat
  let den := x.den
  let digits := fracDigits 17 (n % den) den
  let trimmed := (digits.reverse.dropWhile (· = 0)).reverse
  let frac := if trimmed = [] then [0] else trimmed
  toString (n / den) ++ "." ++ String.join (frac.map (fun dg => toString dg))

/-- `.astype(str)` on a clock-in / clock-out cell (lines 18 and 23 of the
source): `str()` of the cell's Python value. -/
def TimeCell.astypeStr : TimeCell → String
  | .native h m s => pad2 h ++ ":" ++ pad2 m ++ ":" ++ pad2 s
  | .str s => s
  | .num x => ratDecimalRepr x

/-- Split a character list at every occurrence of `sep` (the behaviour of
`str.split` on a one-character separator: `n` separators give `n + 1`
groups, empty groups included). -/
def splitOnChar (sep : Char) : List Char → List (List Char)
  | [] => [[]]
  | c :: rest =>
      match splitOnChar sep rest with
      | [] => [[]]
      | g :: gs => if c = sep then [] :: g :: gs else (c :: g) :: gs

/-- The value of a decimal digit character. -/
def charDigit (c : Char) : Option Nat :=
  if '0' ≤ c ∧ c ≤ '9' then some (c.toNat - '0'.toNat) else none

/-- The value of a nonempty all-digit character list, `none` otherwise. -/
def digitsVal (cs : List Char) : Option Nat :=
  match cs with
  | [] => none
  | _ => go 0 cs
where
  go : Nat → List Char → Option Nat
  | acc, [] => some acc
  | acc, c :: rest =>
      match charDigit c with
      | some dg => go (10 * acc + dg) rest
      | none => none

/-- A 1-or-2-digit decimal field of a time-of-day string. -/
def parseField (cs : List Char) : Option Nat :=
  if 1 ≤ cs.length ∧ cs.length ≤ 2 then digitsVal cs else none

/-- Time-of-day part of `pd.to_datetime(dateStr ++ " " ++ timeStr,
errors="coerce")`: accepts `H:M` and `H:M:S` clock strings with in-range
fields and returns the second of day; anything else (a float repr such as
`"0.375"`, `"nan"`, free text) fails to parse, which `errors="coerce"`
turns into `NaT`, i.e. `none`. -/
def parseTimeOfDay (s : String) : Option Nat :=
  match splitOnChar ':' s.data with
  | [h, m] => do
      let hv ← parseField h
      let mv ← parseField m
      if hv < 24 ∧ mv < 60 then some (3600 * hv + 60 * mv) else none
  | [h, m, sec] => do
      let hv ← parseField h
      let mv ← parseField m
      let sv ← parseField sec
      if hv < 24 ∧ mv < 60 ∧ sv < 60 then some (3600 * hv + 60 * mv + sv)
      else none
  | _ => none

/-- Lines 17–25 of the source: build the candidate timestamp
`pd.to_datetime(df["日付"].astype(str) + " " + cell.astype(str),
errors="coerce")`.  The date column is already a canonical datetime, so its
string form always parses back; the whole string parses exactly when the
time-of-day part does, and failure is `NaT` (`none`). -/
def toDt (d : Date) (c : TimeCell) : Option ℤ :=
  (parseTimeOfDay c.astypeStr).map d.at

/-- The `日付` cell as read from the sheet: a string cell or a native Excel
datetime cell. -/
inductive DateCell where
  | str (s : String)
  | native (d : Date)
deriving DecidableEq, Repr

/-- A `"YYYY-MM-DD"` date string. -/
def parseDateStr (s : String) : Option Date :=
  match splitOnChar '-' s.data with
  | [y, m, d] => do
      let yv ← digitsVal y
      let mv ← digitsVal m
      let dv ← digitsVal d
      if 1 ≤ yv ∧ 1 ≤ mv ∧ mv ≤ 12 ∧ 1 ≤ dv ∧ dv ≤ 31 then
        some ⟨yv, mv, dv⟩
      else none
  | _ => none

/-- Line 14 of the source: `pd.to_datetime(df["日付"])`, *without*
`errors="coerce"` — an unparseable date raises and aborts the run, so the
result is an `Option` whose `none` is turned into `.error` by the caller. -/
def DateCell.to_datetime : DateCell → Option Date
  | .str s => parseDateStr s
  | .native d => some d

/-- numpy/pandas default rounding to an integer: round half to even. -/
def roundHalfEven (q : ℚ) : ℤ :=
  let f : ℤ := ⌊q⌋
  let frac : ℚ := q - f
  if frac < 1 / 2 then f
  else if 1 / 2 < frac then f + 1
  else if f % 2 = 0 then f else f + 1

/-- `Series.round(2)` (line 31 of the source): round to 2 decimal places
with the library's default round-half-to-even. -/
def round2 (q : ℚ) : ℚ :=
  (roundHalfEven (q * 100) : ℚ) / 100

/-- One input row of a monthly sheet, with the four source columns. -/
structure Row where
  hizuke : DateCell
  namae : String
  shukkin : TimeCell
  taikin : TimeCell
deriving DecidableEq, Repr

/-- A row after `calculate_work_hours`: the date column converted to a
datetime, the clock-in/clock-out cells untouched, the intermediate
`出勤_dt` / `退勤_dt` columns already dropped (line 34), and the derived
`勤務時間` column (`none` = NaN). -/
structure RowW where
  hizuke : Date
  namae : String
  shukkin : TimeCell
  taikin : TimeCell
  kinmuJikan : Option ℚ
deriving DecidableEq, Repr

/-- A row after `apply_wage_master`: adds the `時給` column. -/
structure RowG where
  hizuke : Date
  namae : String
  shukkin : TimeCell
  taikin : TimeCell
  kinmuJikan : Option ℚ
  jikyuu : Option ℚ
deriving DecidableEq, Repr

/-- A row after `calculate_salary`: adds the `給与` column. -/
structure RowS where
  hizuke : Date
  namae : String
  shukkin : TimeCell
  taikin : TimeCell
  kinmuJikan : Option ℚ
  jikyuu : Option ℚ
  kyuuyo : Option ℚ
deriving DecidableEq, Repr

/-- A fully processed row: adds the `対象月` tag (line 96).  Its fields, in
order, are exactly the eight output columns `main` selects on line 118. -/
structure OutRow where
  hizuke : Date
  namae : String
  shukkin : TimeCell
  taikin : TimeCell
  kinmuJikan : Option ℚ
  jikyuu : Option ℚ
  kyuuyo : Option ℚ
  taishouTsuki : Nat
deriving DecidableEq, Repr

/-- Worked hours of one row (lines 17–31 of the source): compute both
candidate timestamps; where both exist and clock-out is strictly earlier,
add one day (`pd.Timedelta(days=1)`, 86400 s) to clock-out — the
`退勤_dt < 出勤_dt` mask is `False` whenever either side is `NaT`, so no
correction happens then; the duration in seconds over 3600, rounded to two
decimals, is the hours value; any `NaT` operand makes it NaN (`none`). -/
def workHoursOf (d : Date) (cin cout : TimeCell) : Option ℚ :=
  match toDt d cin, toDt d cout with
  | some i, some o =>
      let o' := if o < i then o + 86400 else o
      some (round2 ((o' - i : ℚ) / 3600))
  | _, _ => none

/-- `calculate_work_hours` restricted to one row: convert the date (raising
on failure), derive `勤務時間`, keep the original cells, drop the `_dt`
intermediates. -/
def rowWorkHours (r : Row) : Except String RowW :=
  match r.hizuke.to_datetime with
  | none => .error "to_datetime: unparseable 日付"
  | some d => .ok ⟨d, r.namae, r.shukkin, r.taikin, workHoursOf d r.shukkin r.taikin⟩

/-- Lines 6–36 of the source: `calculate_work_hours` over the whole frame.
`pd.to_datetime(df["日付"])` raises if any date cell is bad, which aborts
the run; `mapM` into `Except` models that. -/
def calculate_work_hours (df : List Row) : Except String (List RowW) :=
  df.mapM rowWorkHours

/-- Lines 45–49 of the source: the hardcoded wage table. -/
def wage_map : List (String × ℚ) :=
  [("田中", 1400), ("鈴木", 1300), ("佐藤", 1200)]

/-- Lines 39–53 of the source: `df["時給"] = df["名前"].map(wage_map)` —
a name absent from the table maps to NaN (`none`). -/
def apply_wage_master (df : List RowW) : List RowG :=
  df.map fun r =>
    ⟨r.hizuke, r.namae, r.shukkin, r.taikin, r.kinmuJikan, wage_map.lookup r.namae⟩

/-- Lines 56–65 of the source: `df["給与"] = df["勤務時間"] * df["時給"]` —
NaN in either operand gives NaN, otherwise the exact product (no further
rounding). -/
def calculate_salary (df : List RowG) : List RowS :=
  df.map fun r =>
    ⟨r.hizuke, r.namae, r.shukkin, r.taikin, r.kinmuJikan, r.jikyuu,
      match r.kinmuJikan, r.jikyuu with
      | some h, some w => some (h * w)
      | _, _ => none⟩

/-- Line 96 of the source: `df["対象月"] = month`. -/
def tagMonth (month : Nat) (df : List RowS) : List OutRow :=
  df.map fun r =>
    ⟨r.hizuke, r.namae, r.shukkin, r.taikin, r.kinmuJikan, r.jikyuu, r.kyuuyo, month⟩

/-- The input workbook: its sheets by name. -/
structure Workbook where
  sheets : List (String × List Row)

/-- Line 91 of the source: `pd.read_excel(input_path, sheet_name=...)` —
raises (here `.error`) when the requested sheet is absent. -/
def read_excel (wb : Workbook) (sheet_name : String) : Except String (List Row) :=
  match wb.sheets.lookup sheet_name with
  | some rows => .ok rows
  | none => .error ("SheetNotFound: " ++ sheet_name)

/-- Lines 93–96 of the source, the per-sheet body of the loop:
work hours, then wage, then salary, then the month tag. -/
def processMonth (df : List Row) (month : Nat) : Except String (List OutRow) := do
  let w ← calculate_work_hours df
  let g := apply_wage_master w
  let s := calculate_salary g
  .ok (tagMonth month s)

/-- Lines 68–100 of the source: for each requested month in order, read the
sheet `f"{month}月"`, process it, and concatenate the results in request
order (`pd.concat(monthly_dfs, ignore_index=True)`).  Any raise inside the
loop propagates: later months are not read and nothing is returned. -/
def load_and_process_months (wb : Workbook) (months : List Nat) :
    Except String (List OutRow) :=
  match months with
  | [] => .ok []
  | m :: rest => do
      let df ← read_excel wb (toString m ++ "月")
      let out ← processMonth df m
      let restOut ← load_and_process_months wb rest
      .ok (out ++ restOut)

/-- Line 108 of the source. -/
def year : Nat := 2026

/-- Line 109 of the source. -/
def target_months : List Nat := [1, 2, 3]

/-- Line 121 of the source: the output file name embeds the year and the
first and last requested months. -/
def output_path (y : Nat) (months : List Nat) : String :=
  "勤怠管理_勤務時間付き_" ++ toString y ++ "_" ++
    toString (months.headD 0) ++ "-" ++ toString (months.getLastD 0) ++ "月.xlsx"

/-- Lines 103–123 of the source: `main`.  On success the pair is the output
frame (the eight fixed columns, which are exactly `OutRow`'s fields, in
order) and the path written; `.error` means the exception propagated before
line 122, so `to_excel` never ran and no file was created or overwritten. -/
def main_run (wb : Workbook) : Except String (List OutRow × String) := do
  let result ← load_and_process_months wb target_months
  .ok (result, output_path year target_months)

/-- Per-row view of the lines 93–96 loop body, used to state per-record
properties; `processMonth` is proved equal to mapping it. -/
def processRow (month : Nat) (r : Row) : Except String OutRow :=
  match rowWorkHours r with
  | .error e => .error e
  | .ok w =>
      let jk := wage_map.lookup w.namae
      let pay : Option ℚ :=
        match w.kinmuJikan, jk with
        | some h, some wg => some (h * wg)
        | _, _ => none
      .ok ⟨w.hizuke, w.namae, w.shukkin, w.taikin, w.kinmuJikan, jk, pay, month⟩

/-- Modelled from the spec: "After processing all requested months,
concatenate in the order the months were requested, preserving original row
order within each month."  Given the processed table `f m` of each month
`m`, the consolidated report is their concatenation in request order. -/
def specConsolidated (months : List Nat) (f : Nat → List OutRow) : List OutRow :=
  (months.map f).flatten

/-- A three-sheet fixture workbook used as a concrete input. -/
def wbFix : Workbook :=
  ⟨[("1月", [⟨.str "2026-01-05", "田中", .str "09:00", .str "17:00"⟩]),
    ("2月", [⟨.str "2026-02-10", "鈴木", .str "22:00", .str "06:00"⟩]),
    ("3月", [⟨.str "2026-03-03", "山田", .str "08:30", .str "12:00"⟩])]⟩

/-- The processed table of one month of `wbFix`. -/
def wbFixMonth (m : Nat) : List OutRow :=
  ((read_excel wbFix (toString m ++ "月")).bind fun df => processMonth df m).toOption.getD []

/-- A parsed time of day is a second-of-day, strictly below 86400. -/
theorem parseTimeOfDay_lt_86400 (s : String) (v : Nat)
    (h : parseTimeOfDay s = some v) : v < 86400 := by
  unfold parseTimeOfDay at h
  cases hs : splitOnChar ':' s.data with
  | nil => rw [hs] at h; exact absurd h (by simp)
  | cons a t =>
    cases t with
    | nil => rw [hs] at h; exact absurd h (by simp)
    | cons b t2 =>
      cases t2 with
      | nil =>
        rw [hs] at h
        simp only [Option.bind_eq_bind, Option.bind] at h
        cases hpa : parseField a with
        | none => rw [hpa] at h; exact absurd h (by simp)
        | some hv =>
          cases hpb : parseField b with
          | none => rw [hpa, hpb] at h; exact absurd h (by simp)
          | some mv =>
            rw [hpa, hpb] at h
            simp only at h
            split at h
            · rename_i hcond
              obtain ⟨h1, h2⟩ := hcond
              injection h with h
              omega
            · exact absurd h (by simp)
      | cons c t3 =>
        cases t3 with
        | nil =>
          rw [hs] at h
          simp only [Option.bind_eq_bind, Option.bind] at h
          cases hpa : parseField a with
          | none => rw [hpa] at h; exact absurd h (by simp)
          | some hv =>
            cases hpb : parseField b with
            | none => rw [hpa, hpb] at h; exact absurd h (by simp)
            | some mv =>
              cases hpc : parseField c with
              | none => rw [hpa, hpb, hpc] at h; exact absurd h (by simp)
              | some sv =>
                rw [hpa, hpb, hpc] at h
                simp only at h
                split at h
                · rename_i hcond
                  obtain ⟨h1, h2, h3⟩ := hcond
                  injection h with h
                  omega
                · exact absurd h (by simp)
        | cons d t4 => rw [hs] at h; exact absurd h (by simp)

/-- A successful candidate timestamp is the row's date plus a second of day
below 86400 — in particular two timestamps built from the same date are
less than 24 hours apart. -/
theorem toDt_eq_at (d : Date) (c : TimeCell) (t : ℤ) (h : toDt d c = some t) :
    ∃ v : Nat, v < 86400 ∧ t = d.at v := by
  unfold toDt at h
  cases hp : parseTimeOfDay c.astypeStr with
  | none => rw [hp] at h; exact absurd h (by simp)
  | some v =>
    rw [hp] at h
    simp only [Option.map_some'] at h
    exact ⟨v, parseTimeOfDay_lt_86400 _ v hp, (Option.some.inj h).symm⟩

/-- Round-half-to-even of a nonnegative rational is nonnegative. -/
theorem roundHalfEven_nonneg (q : ℚ) (h : 0 ≤ q) : 0 ≤ roundHalfEven q := by
  have hf : (0 : ℤ) ≤ ⌊q⌋ := Int.floor_nonneg.mpr h
  simp only [roundHalfEven]
  split_ifs <;> omega

/-- `round2` of a nonnegative rational is nonnegative. -/
theorem round2_nonneg (q : ℚ) (h : 0 ≤ q) : 0 ≤ round2 q := by
  unfold round2
  have := roundHalfEven_nonneg (q * 100) (by positivity)
  positivity

/-- The sheet-level pipeline of the loop body (lines 93–96) is the map of
the per-row pipeline: work-hours, wage, salary and month tag all act
row-wise. -/
theorem processMonth_eq_mapM (df : List Row) (month : Nat) :
    processMonth df month = df.mapM (processRow month) := by
  induction df with
  | nil => rfl
  | cons r rs ih =>
    unfold processMonth calculate_work_hours at *
    rw [List.mapM_cons, List.mapM_cons]
    cases hr : rowWorkHours r with
    | error e =>
      simp only [hr, bind, Except.bind]
      unfold processRow
      rw [hr]
      try simp only [bind, Except.bind]
    | ok w =>
      simp only [hr, bind, Except.bind]
      cases hs : rs.mapM rowWorkHours with
      | error e =>
        simp only [hs, bind, Except.bind] at *
        rw [← ih]
        unfold processRow
        rw [hr]
        try simp only [bind, Except.bind]
      | ok ws =>
        simp only [hs, bind, Except.bind, pure, Except.pure] at *
        rw [← ih]
        unfold processRow
        rw [hr]
        simp only [bind, Except.bind, pure, Except.pure]
        unfold apply_wage_master calculate_salary tagMonth
        simp only [List.map_cons]

/-- When the row's date parses, `calculate_work_hours` keeps the row, with
the derived hours column and with the original cells untouched. -/
theorem rowWorkHours_ok (r : Row) (d : Date) (hd : r.hizuke.to_datetime = some d) :
    rowWorkHours r = .ok ⟨d, r.namae, r.shukkin, r.taikin, workHoursOf d r.shukkin r.taikin⟩ := by
  unfold rowWorkHours
  rw [hd]

/-- When the row's date parses, the full per-row pipeline succeeds and its
output fields are the derived hours, the wage-table lookup, their product
(null-propagating) and the month tag. -/
theorem processRow_ok (month : Nat) (r : Row) (d : Date)
    (hd : r.hizuke.to_datetime = some d) :
    processRow month r = .ok ⟨d, r.namae, r.shukkin, r.taikin,
      workHoursOf d r.shukkin r.taikin, wage_map.lookup r.namae,
      (match workHoursOf d r.shukkin r.taikin, wage_map.lookup r.namae with
       | some h, some w => some (h * w)
       | _, _ => none), month⟩ := by
  unfold processRow
  rw [rowWorkHours_ok r d hd]

/-- C1: for a record whose clock-in and clock-out both parse (both are
combined with the record's single date), if the clock-out timestamp is
strictly earlier than the clock-in timestamp then exactly 24 hours
(86400 s) are added to clock-out, once, before the duration is taken. -/
theorem C1_overnight_correction (month : Nat) (r : Row) (d : Date) (i o : ℤ)
    (hd : r.hizuke.to_datetime = some d)
    (hi : toDt d r.shukkin = some i)
    (ho : toDt d r.taikin = some o)
    (hlt : o < i) :
    ∃ r' : OutRow, processRow month r = .ok r' ∧
      r'.kinmuJikan = some (round2 (((o : ℚ) + 86400 - (i : ℚ)) / 3600)) := by
  have hh : workHoursOf d r.shukkin r.taikin =
      some (round2 (((o : ℚ) + 86400 - (i : ℚ)) / 3600)) := by
    unfold workHoursOf
    rw [hi, ho]
    simp only [if_pos hlt]
    norm_num
  exact ⟨_, processRow_ok month r d hd, by simp only [hh]⟩

/-- C1 witness: clock-in `"22:00"`, clock-out `"06:00"` on 2026-01-15 is an
overnight shift and yields worked hours 8.00. -/
theorem C1_witness :
    ∃ r' : OutRow,
      processRow 1 ⟨.str "2026-01-15", "鈴木", .str "22:00", .str "06:00"⟩ = .ok r' ∧
      r'.kinmuJikan = some 8 := by
  obtain ⟨r', h1, h2⟩ :=
    C1_overnight_correction 1 ⟨.str "2026-01-15", "鈴木", .str "22:00", .str "06:00"⟩
      ⟨2026, 1, 15⟩ (Date.at ⟨2026, 1, 15⟩ 79200) (Date.at ⟨2026, 1, 15⟩ 21600)
      rfl rfl rfl (by decide)
  refine ⟨r', h1, ?_⟩
  rw [h2]
  norm_num [Date.at, Date.epochDays, round2, roundHalfEven]

/-- C2: for a record whose clock-in and clock-out both parse on the same
date with clock-out at or after clock-in, the derived worked hours are the
difference in seconds over 3600, rounded to 2 decimals with the numeric
library's default round-half-to-even. -/
theorem C2_duration (month : Nat) (r : Row) (d : Date) (i o : ℤ)
    (hd : r.hizuke.to_datetime = some d)
    (hi : toDt d r.shukkin = some i)
    (ho : toDt d r.taikin = some o)
    (hle : i ≤ o) :
    ∃ r' : OutRow, processRow month r = .ok r' ∧
      r'.kinmuJikan = some (round2 (((o : ℚ) - (i : ℚ)) / 3600)) := by
  have hh : workHoursOf d r.shukkin r.taikin =
      some (round2 (((o : ℚ) - (i : ℚ)) / 3600)) := by
    unfold workHoursOf
    rw [hi, ho]
    simp only [if_neg (not_lt.mpr hle)]
  exact ⟨_, processRow_ok month r d hd, by simp only [hh]⟩

/-- C2 witness: 09:00–17:30 on 2026-01-15 yields 8.5 worked hours. -/
theorem C2_witness :
    ∃ r' : OutRow,
      processRow 1 ⟨.str "2026-01-15", "佐藤", .str "09:00", .str "17:30"⟩ = .ok r' ∧
      r'.kinmuJikan = some (17 / 2) := by
  obtain ⟨r', h1, h2⟩ :=
    C2_duration 1 ⟨.str "2026-01-15", "佐藤", .str "09:00", .str "17:30"⟩
      ⟨2026, 1, 15⟩ (Date.at ⟨2026, 1, 15⟩ 32400) (Date.at ⟨2026, 1, 15⟩ 63000)
      rfl rfl rfl (by decide)
  refine ⟨r', h1, ?_⟩
  rw [h2]
  norm_num [Date.at, Date.epochDays, round2, roundHalfEven]

/-- C3 counterexample: clock-in `"ほげ"` does not parse, yet the record's
wage is `some 1400` (from the name lookup), not null as the claim states. -/
theorem C3_counterexample :
    toDt ⟨2026, 1, 15⟩ (TimeCell.str "ほげ") = none ∧
    ∃ r' : OutRow,
      processRow 1 ⟨.str "2026-01-15", "田中", .str "ほげ", .str "06:00"⟩ = .ok r' ∧
      r'.kinmuJikan = none ∧ r'.kyuuyo = none ∧ r'.jikyuu = some 1400 := by
  exact ⟨rfl,
    ⟨⟨2026, 1, 15⟩, "田中", .str "ほげ", .str "06:00", none, some 1400, none, 1⟩,
    rfl, rfl, rfl, rfl⟩

/-- C3 amended: a record whose clock-in or clock-out fails to parse gets
null worked-hours and null pay, no overnight correction (there are no
timestamps to correct), and its wage is resolved from the name alone; the
row is still processed (`.ok`), so the run completes. -/
theorem C3_parse_failure_nulls (month : Nat) (r : Row) (d : Date)
    (hd : r.hizuke.to_datetime = some d)
    (ht : toDt d r.shukkin = none ∨ toDt d r.taikin = none) :
    ∃ r' : OutRow, processRow month r = .ok r' ∧
      r'.kinmuJikan = none ∧ r'.kyuuyo = none ∧
      r'.jikyuu = wage_map.lookup r.namae := by
  have hh : workHoursOf d r.shukkin r.taikin = none := by
    unfold workHoursOf
    rcases ht with h | h
    · rw [h]
    · rw [h]
      cases toDt d r.shukkin <;> rfl
  refine ⟨_, processRow_ok month r d hd, ?_, ?_, rfl⟩
  · simp only [hh]
  · simp only [hh]

/-- C3 witness: the amended statement at the record with name `"田中"` and
unparseable clock-in `"ほげ"`. -/
theorem C3_witness :
    ∃ r' : OutRow,
      processRow 2 ⟨.str "2026-01-15", "田中", .str "ほげ", .str "06:00"⟩ = .ok r' ∧
      r'.kinmuJikan = none ∧ r'.kyuuyo = none ∧
      r'.jikyuu = wage_map.lookup "田中" :=
  C3_parse_failure_nulls 2 ⟨.str "2026-01-15", "田中", .str "ほげ", .str "06:00"⟩
    ⟨2026, 1, 15⟩ rfl (Or.inl rfl)

/-- C4: every worked-hours value the pipeline actually produces is
nonnegative (both candidate timestamps share the record's date, so the
overnight correction always brings the difference back above zero). -/
theorem C4_hours_nonneg (month : Nat) (r : Row) (r' : OutRow) (q : ℚ)
    (h : processRow month r = .ok r') (hq : r'.kinmuJikan = some q) :
    0 ≤ q := by
  cases hdc : r.hizuke.to_datetime with
  | none =>
      unfold processRow rowWorkHours at h
      rw [hdc] at h
      exact absurd h (by simp)
  | some d =>
      rw [processRow_ok month r d hdc] at h
      injection h with h
      rw [← h] at hq
      have hw : workHoursOf d r.shukkin r.taikin = some q := hq
      unfold workHoursOf at hw
      cases hi : toDt d r.shukkin with
      | none => rw [hi] at hw; exact absurd hw (by simp)
      | some i =>
        cases ho : toDt d r.taikin with
        | none => rw [hi, ho] at hw; exact absurd hw (by simp)
        | some o =>
          rw [hi, ho] at hw
          simp only [Option.some.injEq] at hw
          obtain ⟨vi, hvi, rfl⟩ := toDt_eq_at d r.shukkin i hi
          obtain ⟨vo, hvo, rfl⟩ := toDt_eq_at d r.taikin o ho
          rw [← hw]
          apply round2_nonneg
          apply div_nonneg _ (by norm_num)
          rw [sub_nonneg]
          split_ifs with hcase
          · have hb : (d.at vi : ℤ) ≤ d.at vo + 86400 := by
              unfold Date.at
              omega
            exact_mod_cast hb
          · exact_mod_cast not_lt.mp hcase

/-- C4 witness: the 09:00–17:00 record on 2026-01-15, whose derived
worked-hours value is nonnegative. -/
theorem C4_witness :
    0 ≤ round2 ((((Date.at ⟨2026, 1, 15⟩ 61200 : ℤ) : ℚ) -
      ((Date.at ⟨2026, 1, 15⟩ 32400 : ℤ) : ℚ)) / 3600) :=
  C4_hours_nonneg 1 ⟨.str "2026-01-15", "田中", .str "09:00", .str "17:00"⟩
    ⟨⟨2026, 1, 15⟩, "田中", .str "09:00", .str "17:00",
      some (round2 ((((Date.at ⟨2026, 1, 15⟩ 61200 : ℤ) : ℚ) -
        ((Date.at ⟨2026, 1, 15⟩ 32400 : ℤ) : ℚ)) / 3600)),
      some 1400,
      some (round2 ((((Date.at ⟨2026, 1, 15⟩ 61200 : ℤ) : ℚ) -
        ((Date.at ⟨2026, 1, 15⟩ 32400 : ℤ) : ℚ)) / 3600) * 1400), 1⟩
    _ rfl rfl

/-- One unfolding of the month loop. -/
theorem load_cons (wb : Workbook) (m : Nat) (rest : List Nat) :
    load_and_process_months wb (m :: rest) = (do
      let df ← read_excel wb (toString m ++ "月")
      let out ← processMonth df m
      let restOut ← load_and_process_months wb rest
      .ok (out ++ restOut)) := rfl

/-- If any requested month's sheet is absent, the month loop raises:
the exception from `pd.read_excel` propagates out of
`load_and_process_months`. -/
theorem load_err_of_missing (wb : Workbook) (months : List Nat) (m : Nat)
    (hm : m ∈ months)
    (habs : wb.sheets.lookup (toString m ++ "月") = none) :
    ∃ e, load_and_process_months wb months = .error e := by
  induction months with
  | nil => cases hm
  | cons m0 rest ih =>
    rw [load_cons]
    cases hr : read_excel wb (toString m0 ++ "月") with
    | error e => exact ⟨e, by simp [hr, bind, Except.bind]⟩
    | ok df =>
      rcases List.mem_cons.mp hm with rfl | hm2
      · unfold read_excel at hr
        rw [habs] at hr
        exact absurd hr (by simp)
      · cases hp : processMonth df m0 with
        | error e => exact ⟨e, by simp [hr, hp, bind, Except.bind]⟩
        | ok out =>
          obtain ⟨e, he⟩ := ih hm2
          exact ⟨e, by simp [hr, hp, he, bind, Except.bind]⟩

/-- C5: if the sheet `"2月"` is absent from the workbook, `main` raises
before reaching the output step — `main_run` returns `.error`, so the
output pair (frame, path) is never produced and no file is written or
overwritten, regardless of how the other requested sheets process. -/
theorem C5_missing_sheet_aborts (wb : Workbook)
    (h : wb.sheets.lookup "2月" = none) :
    ∃ e, main_run wb = .error e := by
  obtain ⟨e, he⟩ :=
    load_err_of_missing wb target_months 2 (by unfold target_months; simp)
      (by rw [show (toString 2 ++ "月") = "2月" from rfl]; exact h)
  exact ⟨e, by unfold main_run; simp [he, bind, Except.bind]⟩

/-- C5 witness: months `[1, 2, 3]` with `"1月"` and `"3月"` present (and
month 1 processing successfully) but `"2月"` absent: the run errors. -/
theorem C5_witness :
    (read_excel ⟨[("1月", [⟨.str "2026-01-15", "田中", .str "09:00", .str "17:00"⟩]),
        ("3月", [])]⟩ "1月").isOk = true ∧
    (processMonth [⟨.str "2026-01-15", "田中", .str "09:00", .str "17:00"⟩] 1).isOk = true ∧
    ∃ e, main_run ⟨[("1月", [⟨.str "2026-01-15", "田中", .str "09:00", .str "17:00"⟩]),
        ("3月", [])]⟩ = .error e := by
  refine ⟨rfl, rfl, ?_⟩
  exact C5_missing_sheet_aborts
    ⟨[("1月", [⟨.str "2026-01-15", "田中", .str "09:00", .str "17:00"⟩]), ("3月", [])]⟩ rfl

/-- C6 (code bug): the normalizer accepts a native time cell and a clock
string, but a numeric fraction-of-day cell (`0.375`, i.e. 09:00) is
stringified to `"0.375"`, which does not parse as a time of day, so the
candidate timestamp coerces to NaT (`none`) instead of the promised
date+09:00 — contradicting the function's own docstring
(`Excelの時刻型 / 文字列 / 数値 / 深夜跨ぎすべて対応`). -/
theorem C6_numeric_cell_fails :
    toDt ⟨2026, 1, 15⟩ (TimeCell.native 9 0 0) = some (Date.at ⟨2026, 1, 15⟩ 32400) ∧
    toDt ⟨2026, 1, 15⟩ (TimeCell.str "09:00") = some (Date.at ⟨2026, 1, 15⟩ 32400) ∧
    TimeCell.astypeStr (TimeCell.num ⟨3, 8, by norm_num, by norm_num⟩) = "0.375" ∧
    toDt ⟨2026, 1, 15⟩ (TimeCell.num ⟨3, 8, by norm_num, by norm_num⟩) = none :=
  ⟨rfl, rfl, rfl, rfl⟩

/-- C7: if every requested month's sheet reads and processes successfully,
with processed table `f m`, the consolidated frame is exactly the
concatenation of the `f m` in the requested order (`specConsolidated`),
preserving within-month row order. -/
theorem C7_requested_order (wb : Workbook) (months : List Nat)
    (f : Nat → List OutRow)
    (h : ∀ m ∈ months,
      (read_excel wb (toString m ++ "月")).bind (fun df => processMonth df m) =
        .ok (f m)) :
    load_and_process_months wb months = .ok (specConsolidated months f) := by
  induction months with
  | nil => rfl
  | cons m rest ih =>
    have hm := h m (List.mem_cons_self m rest)
    have hrest := fun m2 hm2 => h m2 (List.mem_cons_of_mem m hm2)
    rw [load_cons]
    cases hr : read_excel wb (toString m ++ "月") with
    | error e =>
        rw [hr] at hm
        exact absurd hm (by simp [Except.bind])
    | ok df =>
        rw [hr] at hm
        simp only [Except.bind] at hm
        simp [hr, hm, ih hrest, bind, Except.bind, specConsolidated]


/-- C7 witness: requesting `[2, 1, 3]` over the three-sheet fixture yields
the months grouped in exactly that requested order. -/
theorem C7_witness :
    load_and_process_months wbFix [2, 1, 3] = .ok (specConsolidated [2, 1, 3] wbFixMonth) ∧
    (specConsolidated [2, 1, 3] wbFixMonth).map (fun r => r.taishouTsuki) = [2, 1, 3] ∧
    (specConsolidated [2, 1, 3] wbFixMonth).map (fun r => r.namae) = ["鈴木", "田中", "山田"] := by
  refine ⟨?_, rfl, rfl⟩
  exact C7_requested_order wbFix [2, 1, 3] wbFixMonth (by intro m hm; fin_cases hm <;> rfl)

/-- C8: for every processed record, pay is exactly worked-hours × wage when
both are non-null (no separate rounding of pay) and null when either
operand is null. -/
theorem C8_pay (month : Nat) (r : Row) (r' : OutRow)
    (h : processRow month r = .ok r') :
    r'.kyuuyo = match r'.kinmuJikan, r'.jikyuu with
      | some hq, some w => some (hq * w)
      | _, _ => none := by
  cases hdc : r.hizuke.to_datetime with
  | none =>
      unfold processRow rowWorkHours at h
      rw [hdc] at h
      exact absurd h (by simp)
  | some d =>
      rw [processRow_ok month r d hdc] at h
      injection h with h
      rw [← h]

/-- C8 witness: worked-hours 8.00 at wage 1400 gives pay 11200. -/
theorem C8_witness :
    ∃ r' : OutRow,
      processRow 1 ⟨.str "2026-01-15", "田中", .str "09:00", .str "17:00"⟩ = .ok r' ∧
      r'.kinmuJikan = some 8 ∧ r'.jikyuu = some 1400 ∧ r'.kyuuyo = some 11200 := by
  have h := processRow_ok 1 ⟨.str "2026-01-15", "田中", .str "09:00", .str "17:00"⟩
    ⟨2026, 1, 15⟩ rfl
  have hk : workHoursOf ⟨2026, 1, 15⟩ (.str "09:00") (.str "17:00") = some 8 := by
    unfold workHoursOf
    rw [show toDt ⟨2026, 1, 15⟩ (.str "09:00") = some (Date.at ⟨2026, 1, 15⟩ 32400) from rfl,
      show toDt ⟨2026, 1, 15⟩ (.str "17:00") = some (Date.at ⟨2026, 1, 15⟩ 61200) from rfl]
    norm_num [Date.at, Date.epochDays, round2, roundHalfEven]
  have hp := C8_pay 1 _ _ h
  refine ⟨_, h, hk, rfl, ?_⟩
  rw [hp]
  simp only [hk]
  rw [show List.lookup "田中" wage_map = some (1400 : ℚ) from rfl]
  norm_num

/-- C9: the wage resolver is exactly the fixed table 田中→1400, 鈴木→1300,
佐藤→1200, and every other name resolves to null — no error, no default. -/
theorem C9_wage_table (rw0 : RowW) :
    (apply_wage_master [rw0]).map RowG.jikyuu = [wage_map.lookup rw0.namae] ∧
    wage_map.lookup "田中" = some 1400 ∧
    wage_map.lookup "鈴木" = some 1300 ∧
    wage_map.lookup "佐藤" = some 1200 ∧
    ∀ n : String, n ≠ "田中" → n ≠ "鈴木" → n ≠ "佐藤" →
      wage_map.lookup n = none := by
  refine ⟨rfl, rfl, rfl, rfl, ?_⟩
  intro n h1 h2 h3
  have e1 : (n == "田中") = false := beq_eq_false_iff_ne.mpr h1
  have e2 : (n == "鈴木") = false := beq_eq_false_iff_ne.mpr h2
  have e3 : (n == "佐藤") = false := beq_eq_false_iff_ne.mpr h3
  unfold wage_map
  simp [List.lookup, e1, e2, e3]

/-- C9 witness: the unknown name `"山田"` resolves to null. -/
theorem C9_witness :
    wage_map.lookup "山田" = none ∧
    (apply_wage_master [⟨⟨2026, 1, 15⟩, "山田", .str "09:00", .str "17:00",
      some 8⟩]).map RowG.jikyuu = [none] := by
  obtain ⟨hmap, _, _, _, h5⟩ :=
    C9_wage_table ⟨⟨2026, 1, 15⟩, "山田", .str "09:00", .str "17:00", some 8⟩
  have hn := h5 "山田" (by decide) (by decide) (by decide)
  exact ⟨hn, by rw [hmap, hn]⟩

/-- C10: the clock-in and clock-out cells pass through the pipeline
unmodified (the +24h correction only ever touched the dropped `_dt`
intermediates), while the date field of the output is the
datetime-converted value of the input cell. -/
theorem C10_frame (month : Nat) (r : Row) (r' : OutRow)
    (h : processRow month r = .ok r') :
    r'.shukkin = r.shukkin ∧ r'.taikin = r.taikin ∧
    r.hizuke.to_datetime = some r'.hizuke := by
  cases hdc : r.hizuke.to_datetime with
  | none =>
      unfold processRow rowWorkHours at h
      rw [hdc] at h
      exact absurd h (by simp)
  | some d =>
      rw [processRow_ok month r d hdc] at h
      injection h with h
      exact ⟨by rw [← h], by rw [← h],
        congrArg (fun x => some (OutRow.hizuke x)) h⟩

/-- C10 witness: an overnight record (so the correction really fires) whose
output still carries the original `"22:00"` / `"06:00"` cells, with the
date column converted. -/
theorem C10_witness :
    ∃ r' : OutRow,
      processRow 3 ⟨.str "2026-01-15", "佐藤", .str "22:00", .str "06:00"⟩ = .ok r' ∧
      r'.shukkin = TimeCell.str "22:00" ∧ r'.taikin = TimeCell.str "06:00" ∧
      r'.hizuke = ⟨2026, 1, 15⟩ := by
  have h := processRow_ok 3 ⟨.str "2026-01-15", "佐藤", .str "22:00", .str "06:00"⟩
    ⟨2026, 1, 15⟩ rfl
  obtain ⟨h1, h2, _⟩ := C10_frame 3 _ _ h
  exact ⟨_, h, h1, h2, rfl⟩
